import Mathlib

/-!
Verification development for `scripts/ig_reels_scheduler.py`, a scheduler that
publishes reels listed in a CSV manifest at scheduled IST times.

The script is embedded shallowly:
- datetimes become explicit field records compared lexicographically (both the
  schedule and `now` carry the same fixed IST zone in the script, so aware
  comparison coincides with field-wise comparison);
- `datetime.strptime(s, "%Y-%m-%d %H:%M")` becomes a character-list parser
  mirroring CPython `_strptime` regexes for `%Y %m %d %H %M`, including the
  full-consumption requirement and the calendar validity check;
- the three remote calls (`create_reel_container`, status query inside
  `poll_container_ready`, `publish_container`) become an oracle record; an
  HTTP-level failure (`raise_for_status`) is an `Except.error`;
- the poll loop gets a fuel parameter (the Python loop is `while True`);
  queries are instantaneous and each `time.sleep(POLL_INTERVAL)` advances the
  elapsed clock by the interval, so the `time.time() - start` reading at the
  i-th query is `i * interval`;
- an uncaught Python exception in `main` becomes an `Except.error` result of
  the whole run (the script has no try/except around the remote steps).
-/

/-! ## Datetimes -/

/-- Minute-granularity naive datetime, as produced by
`datetime.strptime(s, "%Y-%m-%d %H:%M")` (seconds and microseconds 0). -/
structure DateTime where
  year : Nat
  month : Nat
  day : Nat
  hour : Nat
  minute : Nat
deriving DecidableEq, Repr

/-- A full instant as produced by `datetime.now(IST)`: the naive fields down
to microseconds. The zone is the fixed IST offset on both sides of every
comparison in the script, so it is not represented. -/
structure Instant where
  year : Nat
  month : Nat
  day : Nat
  hour : Nat
  minute : Nat
  second : Nat
  microsecond : Nat
deriving DecidableEq, Repr

/-- `.replace(second=0, microsecond=0)` applied to `datetime.now(IST)`. -/
def truncToMinute (t : Instant) : Instant :=
  { t with second := 0, microsecond := 0 }

/-- View a parsed schedule time as an instant (seconds/microseconds 0),
matching how `datetime.strptime` fills the unparsed fields. -/
def dtToInstant (d : DateTime) : Instant :=
  ⟨d.year, d.month, d.day, d.hour, d.minute, 0, 0⟩

/-- Lexicographic strict order on equal-length field lists; CPython compares
two datetimes with the same tzinfo exactly this way on their naive fields. -/
def lexLt : List Nat → List Nat → Bool
  | [], [] => false
  | [], _ :: _ => true
  | _ :: _, [] => false
  | a :: as, b :: bs => Nat.blt a b || (a == b && lexLt as bs)

def Instant.fields (t : Instant) : List Nat :=
  [t.year, t.month, t.day, t.hour, t.minute, t.second, t.microsecond]

/-- `a < b` on IST-aware datetimes in the script. -/
def instantLt (a b : Instant) : Bool :=
  lexLt a.fields b.fields

/-! ## strptime "%Y-%m-%d %H:%M"

CPython `_strptime` compiles the format into an anchored regex and requires
the whole input to be consumed; the per-directive patterns are
`%Y = dddd`, `%m = 1[0-2]|0[1-9]|[1-9]`, `%d = 3[01]|[12]d|0[1-9]|[1-9]`,
`%H = 2[0-3]|[0-1]d|d`, `%M = [0-5]d|d`, and whitespace in the format matches
one or more whitespace characters. The `datetime` constructor then rejects
year 0 and a day beyond the month length. -/

def digitVal (c : Char) : Nat := c.toNat - 48

/-- `%Y`: exactly four digits. -/
def matchY : List Char → Option (Nat × List Char)
  | c1 :: c2 :: c3 :: c4 :: rest =>
    if c1.isDigit ∧ c2.isDigit ∧ c3.isDigit ∧ c4.isDigit then
      some (1000 * digitVal c1 + 100 * digitVal c2 + 10 * digitVal c3 + digitVal c4, rest)
    else none
  | _ => none

/-- `%m`: `1[0-2] | 0[1-9] | [1-9]`, alternatives tried in order. -/
def matchMonth : List Char → Option (Nat × List Char)
  | c1 :: c2 :: rest =>
    if c1 = '1' ∧ '0' ≤ c2 ∧ c2 ≤ '2' then some (10 + digitVal c2, rest)
    else if c1 = '0' ∧ '1' ≤ c2 ∧ c2 ≤ '9' then some (digitVal c2, rest)
    else if '1' ≤ c1 ∧ c1 ≤ '9' then some (digitVal c1, c2 :: rest)
    else none
  | [c1] => if '1' ≤ c1 ∧ c1 ≤ '9' then some (digitVal c1, []) else none
  | [] => none

/-- `%d`: `3[01] | [12]d | 0[1-9] | [1-9]`. -/
def matchDay : List Char → Option (Nat × List Char)
  | c1 :: c2 :: rest =>
    if c1 = '3' ∧ (c2 = '0' ∨ c2 = '1') then some (30 + digitVal c2, rest)
    else if (c1 = '1' ∨ c1 = '2') ∧ c2.isDigit then some (10 * digitVal c1 + digitVal c2, rest)
    else if c1 = '0' ∧ '1' ≤ c2 ∧ c2 ≤ '9' then some (digitVal c2, rest)
    else if '1' ≤ c1 ∧ c1 ≤ '9' then some (digitVal c1, c2 :: rest)
    else none
  | [c1] => if '1' ≤ c1 ∧ c1 ≤ '9' then some (digitVal c1, []) else none
  | [] => none

/-- `%H`: `2[0-3] | [0-1]d | d`. -/
def matchHour : List Char → Option (Nat × List Char)
  | c1 :: c2 :: rest =>
    if c1 = '2' ∧ '0' ≤ c2 ∧ c2 ≤ '3' then some (20 + digitVal c2, rest)
    else if (c1 = '0' ∨ c1 = '1') ∧ c2.isDigit then some (10 * digitVal c1 + digitVal c2, rest)
    else if c1.isDigit then some (digitVal c1, c2 :: rest)
    else none
  | [c1] => if c1.isDigit then some (digitVal c1, []) else none
  | [] => none

/-- `%M`: `[0-5]d | d`. -/
def matchMinute : List Char → Option (Nat × List Char)
  | c1 :: c2 :: rest =>
    if '0' ≤ c1 ∧ c1 ≤ '5' ∧ c2.isDigit then some (10 * digitVal c1 + digitVal c2, rest)
    else if c1.isDigit then some (digitVal c1, c2 :: rest)
    else none
  | [c1] => if c1.isDigit then some (digitVal c1, []) else none
  | [] => none

/-- A literal character of the format. -/
def matchLit (c : Char) : List Char → Option (List Char)
  | c1 :: rest => if c1 = c then some rest else none
  | [] => none

/-- Whitespace in the format: one or more whitespace characters. -/
def matchWs : List Char → Option (List Char)
  | c1 :: rest =>
    if c1.isWhitespace then some (rest.dropWhile Char.isWhitespace) else none
  | [] => none

def isLeap (y : Nat) : Bool :=
  (y % 4 == 0 && y % 100 != 0) || y % 400 == 0

def daysInMonth (y m : Nat) : Nat :=
  if m = 2 then (if isLeap y then 29 else 28)
  else if m = 4 ∨ m = 6 ∨ m = 9 ∨ m = 11 then 30
  else 31

/-- `datetime.strptime(s, "%Y-%m-%d %H:%M")`: anchored match, full
consumption, then the `datetime` constructor's range checks (month and the
shapes of hour/minute are already enforced by the directive patterns). -/
def strptime_YmdHM (s : String) : Option DateTime :=
  match matchY s.data with
  | none => none
  | some (y, cs1) =>
    match matchLit '-' cs1 with
    | none => none
    | some cs2 =>
      match matchMonth cs2 with
      | none => none
      | some (mo, cs3) =>
        match matchLit '-' cs3 with
        | none => none
        | some cs4 =>
          match matchDay cs4 with
          | none => none
          | some (d, cs5) =>
            match matchWs cs5 with
            | none => none
            | some cs6 =>
              match matchHour cs6 with
              | none => none
              | some (h, cs7) =>
                match matchLit ':' cs7 with
                | none => none
                | some cs8 =>
                  match matchMinute cs8 with
                  | none => none
                  | some (mi, cs9) =>
                    if cs9 = [] ∧ 1 ≤ y ∧ d ≤ daysInMonth y mo then
                      some ⟨y, mo, d, h, mi⟩
                    else none

/-! ## The manifest rows and the due gate -/

/-- One CSV row as `csv.DictReader` hands it to `main` (all values strings). -/
structure Row where
  posted : String
  scheduled_time_ist : String
  video_url : String
  caption : String
  share_to_feed : String
  cover_url : String
deriving DecidableEq, Repr

/-- Python `str.strip()`: remove leading and trailing whitespace. (Modelled
on the character list so that it computes inside the kernel.) -/
def pyStrip (s : String) : String :=
  ⟨((s.data.dropWhile Char.isWhitespace).reverse.dropWhile Char.isWhitespace).reverse⟩

/-- Python `str.lower()` (ASCII case folding, which covers every string the
script compares after lowering). -/
def pyLower (s : String) : String :=
  ⟨s.data.map Char.toLower⟩

/-- `parse_bool`: `str(s).strip().lower() in {"1", "true", "yes", "y"}`. -/
def parse_bool (s : String) : Bool :=
  let t := pyLower (pyStrip s)
  t == "1" || t == "true" || t == "yes" || t == "y"

/-- Models Python `sched_str.endswith(":00Z-legacy")`. -/
def endsWithLegacy (s : String) : Bool :=
  ":00Z-legacy".data.isSuffixOf s.data

/-- Models `IST.localize(dt)`: `zoneinfo.ZoneInfo` has no `localize` method
(that is a pytz API), so the call always raises `AttributeError`. -/
def IST_localize (_dt : DateTime) : Option DateTime := none

/-- The parse expression of `main`:
`IST.localize(strptime(s, fmt)) if s and s.endswith(":00Z-legacy")
 else strptime(s, fmt).replace(tzinfo=IST)`.
`strptime` is evaluated before `localize`; `.replace(tzinfo=IST)` keeps the
naive fields unchanged. `none` is a raised exception, caught by the bare
`except` around this expression. -/
def parseSched (sched_str : String) : Option DateTime :=
  if sched_str ≠ "" ∧ endsWithLegacy sched_str then
    (strptime_YmdHM sched_str).bind IST_localize
  else
    strptime_YmdHM sched_str

/-- Outcome of the per-row gating prelude of `main`'s loop. `skipBadFormat`
is the arm that prints the `[WARN] Bad time format` line. -/
inductive Gate
  | skipPosted
  | skipEmptySched
  | skipBadFormat (sched : String)
  | notDue
  | due (sched : DateTime)
deriving DecidableEq, Repr

/-- Whether the gate lets the row proceed to the remote lifecycle. -/
def Gate.isDue : Gate → Bool
  | .due _ => true
  | _ => false

/-- Whether the gate prints a warning (only the bad-format arm does). -/
def Gate.warned : Gate → Bool
  | .skipBadFormat _ => true
  | _ => false

/-- The gating prelude of `main`'s loop for one row, with `now_ist` the
already minute-truncated current IST time:
skip if `parse_bool(posted)`; skip silently if the stripped schedule string
is empty; warn and skip if it fails to parse; skip if `now_ist < sched_dt`;
otherwise the row is due. -/
def gateRecord (row : Row) (now_ist : Instant) : Gate :=
  if parse_bool row.posted then .skipPosted
  else
    let sched_str := pyStrip row.scheduled_time_ist
    if sched_str = "" then .skipEmptySched
    else
      match parseSched sched_str with
      | none => .skipBadFormat sched_str
      | some sched_dt =>
        if instantLt now_ist (dtToInstant sched_dt) then .notDue
        else .due sched_dt

/-! ## The poll loop

`poll_container_ready` queries `status_code`, returns on `FINISHED`, raises
`RuntimeError` on `ERROR`/`EXPIRED`, raises `TimeoutError` once
`time.time() - start > POLL_TIMEOUT`, and otherwise sleeps `POLL_INTERVAL`
and repeats. The status oracle `st i` is the i-th query: `.error` is an HTTP
failure surfaced by `raise_for_status`, `.ok none` a response without a
`status_code` field (`r.json().get("status_code")` is `None`). -/

inductive PollOutcome
  /-- `return True` -/
  | finished
  /-- `RuntimeError(f"Container ... failed with status: {status}")` -/
  | containerFailed (status : String)
  /-- `TimeoutError(f"Container ... not ready within timeout.")` -/
  | timedOut
  /-- `r.raise_for_status()` raised on a status query -/
  | transportError (msg : String)
deriving DecidableEq, Repr

/-- The `while True` body, with fuel (the Python loop is unbounded); `i` is
the number of queries already made, `elapsed` the `time.time() - start`
reading at the coming query (queries are instantaneous, each sleep adds the
interval). Returns the outcome and the total number of status queries made;
`none` is fuel exhaustion (the model ran out of steps, not the script). -/
def pollLoop (st : Nat → Except String (Option String)) (interval timeout : Int) :
    Nat → Nat → Int → Option (PollOutcome × Nat)
  | 0, _, _ => none
  | fuel + 1, i, elapsed =>
    match st i with
    | .error e => some (.transportError e, i + 1)
    | .ok status =>
      if status == some "FINISHED" then some (.finished, i + 1)
      else if status == some "ERROR" || status == some "EXPIRED" then
        some (.containerFailed (status.getD ""), i + 1)
      else if elapsed > timeout then some (.timedOut, i + 1)
      else pollLoop st interval timeout fuel (i + 1) (elapsed + interval)

/-- `poll_container_ready(container_id)` for a container whose status
responses are `st`. -/
def poll_container_ready (st : Nat → Except String (Option String))
    (interval timeout : Int) (fuel : Nat) : Option (PollOutcome × Nat) :=
  pollLoop st interval timeout fuel 0 0

/-! ## The per-record lifecycle and the run -/

/-- The remote behaviour one record's lifecycle observes: the result of its
`create_reel_container` call, its status responses, and the result of its
`publish_container` call. `.error` is a raised `requests` exception. -/
structure RecordApi where
  createResult : Except String String
  status : Nat → Except String (Option String)
  publishResult : Except String String

/-- How many remote calls of each kind one record's lifecycle issued. -/
structure CallCounts where
  creates : Nat
  statusQueries : Nat
  publishes : Nat
deriving DecidableEq, Repr

/-- The exception a record's lifecycle raises, none of which `main` catches. -/
inductive StepError
  | createError (msg : String)
  | transportError (msg : String)
  | containerFailed (containerId status : String)
  | timeoutError (containerId : String)
  | publishError (msg : String)
deriving DecidableEq, Repr

/-- The due branch of `main`'s loop body for one record:
`create_reel_container`, then `poll_container_ready`, then
`publish_container`. Returns the media id or the raised exception, plus the
call counts; `none` is poll-fuel exhaustion. -/
def processDue (api : RecordApi) (interval timeout : Int) (fuel : Nat) :
    Option (Except StepError String × CallCounts) :=
  match api.createResult with
  | .error e => some (.error (.createError e), ⟨1, 0, 0⟩)
  | .ok cid =>
    match poll_container_ready api.status interval timeout fuel with
    | none => none
    | some (.finished, q) =>
      match api.publishResult with
      | .error e => some (.error (.publishError e), ⟨1, q, 1⟩)
      | .ok mid => some (.ok mid, ⟨1, q, 1⟩)
    | some (.containerFailed stat, q) =>
      some (.error (.containerFailed cid stat), ⟨1, q, 0⟩)
    | some (.timedOut, q) => some (.error (.timeoutError cid), ⟨1, q, 0⟩)
    | some (.transportError e, q) => some (.error (.transportError e), ⟨1, q, 0⟩)

/-- `row["posted"] = "true"` after a confirmed publish. -/
def setPosted (r : Row) : Row := { r with posted := "true" }

/-- An exception that escapes `main`'s loop: the record index it arose at
and the step exception. Nothing in `main` catches it, so it aborts the run
before any later record is visited and before the manifest write. -/
inductive RunError
  | step (idx : Nat) (e : StepError)
deriving DecidableEq, Repr

/-- What a completed run of `main` produced: the final row list, the
`changed` flag (the manifest is rewritten iff it is true), and the per-index
remote call counts of the records that went through the lifecycle. -/
structure RunOutcome where
  rows : List Row
  changed : Bool
  calls : List (Nat × CallCounts)
deriving DecidableEq, Repr

/-- `main`'s loop over the rows. `api idx` is the remote behaviour record
`idx` would observe; `now_ist` is already minute-truncated. An erroring
lifecycle makes the whole loop return that error, as the uncaught exception
does in the script. -/
def runLoop (api : Nat → RecordApi) (interval timeout : Int) (fuel : Nat)
    (now_ist : Instant) : List Row → Nat → Option (Except RunError RunOutcome)
  | [], _ => some (.ok ⟨[], false, []⟩)
  | row :: rest, idx =>
    if (gateRecord row now_ist).isDue then
      match processDue (api idx) interval timeout fuel with
      | none => none
      | some (.error e, _) => some (.error (.step idx e))
      | some (.ok _, cc) =>
        match runLoop api interval timeout fuel now_ist rest (idx + 1) with
        | none => none
        | some (.error e) => some (.error e)
        | some (.ok out) =>
          some (.ok ⟨setPosted row :: out.rows, true, (idx, cc) :: out.calls⟩)
    else
      match runLoop api interval timeout fuel now_ist rest (idx + 1) with
      | none => none
      | some (.error e) => some (.error e)
      | some (.ok out) => some (.ok ⟨row :: out.rows, out.changed, out.calls⟩)

/-- The whole of `main` after the manifest has been read into `rows` (Lean
reserves the name `main` for an IO entry point, hence `mainRun`): truncate
`datetime.now(IST)` to the minute, run the loop. A `.ok` result is a normal
process exit (the manifest is rewritten iff `changed`); a `.error` result is
the uncaught exception that kills the process. -/
def mainRun (api : Nat → RecordApi) (interval timeout : Int) (fuel : Nat)
    (now : Instant) (rows : List Row) : Option (Except RunError RunOutcome) :=
  runLoop api interval timeout fuel (truncToMinute now) rows 0

/-! ## Reference definitions taken from the spec's words (for the refinement
claim about due gating) -/

/-- Modelled from the spec: `isDue(record, now)` as §4.1 words it — false if
`posted`; false if the schedule string is empty or fails to parse; false if
`now < scheduledTime`; true otherwise, with `now` truncated to minute
granularity before the comparison. (An empty string also fails to parse, so
the empty and unparsable cases collapse into the `none` arm.) -/
def isDue_spec (row : Row) (now : Instant) : Bool :=
  if parse_bool row.posted then false
  else
    match parseSched (pyStrip row.scheduled_time_ist) with
    | none => false
    | some sched_dt => !instantLt (truncToMinute now) (dtToInstant sched_dt)

/-- Modelled from the spec: the spec says an empty or unparsable schedule
string is "a skip ... logs a warning and continues", so a warning is claimed
for every unposted row whose schedule string yields no parsed time. -/
def warns_spec (row : Row) : Bool :=
  !parse_bool row.posted && (parseSched (pyStrip row.scheduled_time_ist)).isNone

/-- The warning behaviour the code actually has: only a NONempty schedule
string that fails to parse prints the `[WARN]` line; an empty one is skipped
silently. -/
def warnsAmended (row : Row) : Bool :=
  !parse_bool row.posted && !(pyStrip row.scheduled_time_ist == "") &&
    (parseSched (pyStrip row.scheduled_time_ist)).isNone

/-! ## Concrete fixtures for witnesses and counterexamples -/

/-- An unposted row scheduled for 2024-01-01 00:00 IST. -/
def dueRow : Row := ⟨"false", "2024-01-01 00:00", "http://v", "", "true", ""⟩

/-- A row already marked posted. -/
def postedRow : Row := ⟨"true", "2024-01-01 00:00", "http://v", "", "true", ""⟩

/-- An unposted row whose schedule string is whitespace only (empty after
`strip()`). -/
def emptyRow : Row := ⟨"false", "  ", "http://v", "", "true", ""⟩

/-- 2024-01-02 00:00:30.000500 IST: a day past `dueRow`'s schedule. -/
def now0 : Instant := ⟨2024, 1, 2, 0, 0, 30, 500⟩

/-- A container that reports `IN_PROGRESS` on every status query. -/
def ipApi : RecordApi :=
  ⟨.ok "c1", fun _ => .ok (some "IN_PROGRESS"), .ok "m1"⟩

/-- A record whose `create_reel_container` call raises. -/
def failCreateApi : RecordApi := ⟨.error "boom", fun _ => .ok none, .error "x"⟩

/-- A record whose container is `FINISHED` on the first query and publishes
as media `m1`. -/
def okApi : RecordApi := ⟨.ok "c1", fun _ => .ok (some "FINISHED"), .ok "m1"⟩

/-! ## Poll loop helper lemmas -/

lemma pollLoop_finished {st : Nat → Except String (Option String)}
    {interval timeout : Int} {fuel i : Nat} {elapsed : Int}
    (hs : st i = .ok (some "FINISHED")) :
    pollLoop st interval timeout (fuel + 1) i elapsed = some (.finished, i + 1) := by
  simp [pollLoop, hs]

lemma pollLoop_failstat {st : Nat → Except String (Option String)}
    {interval timeout : Int} {fuel i : Nat} {elapsed : Int} {s : String}
    (hs : st i = .ok (some s)) (hfail : s = "ERROR" ∨ s = "EXPIRED") :
    pollLoop st interval timeout (fuel + 1) i elapsed =
      some (.containerFailed s, i + 1) := by
  rcases hfail with h | h <;> subst h <;> simp [pollLoop, hs, Option.getD]

lemma pollLoop_cont {st : Nat → Except String (Option String)}
    {interval timeout : Int} {fuel i : Nat} {elapsed : Int} {v : Option String}
    (hs : st i = .ok v)
    (h1 : v ≠ some "FINISHED") (h2 : v ≠ some "ERROR") (h3 : v ≠ some "EXPIRED")
    (hto : ¬ elapsed > timeout) :
    pollLoop st interval timeout (fuel + 1) i elapsed =
      pollLoop st interval timeout fuel (i + 1) (elapsed + interval) := by
  simp [pollLoop, hs, h1, h2, h3, hto]

lemma pollLoop_timeout {st : Nat → Except String (Option String)}
    {interval timeout : Int} {fuel i : Nat} {elapsed : Int} {v : Option String}
    (hs : st i = .ok v)
    (h1 : v ≠ some "FINISHED") (h2 : v ≠ some "ERROR") (h3 : v ≠ some "EXPIRED")
    (hto : elapsed > timeout) :
    pollLoop st interval timeout (fuel + 1) i elapsed = some (.timedOut, i + 1) := by
  simp [pollLoop, hs, h1, h2, h3, hto]

/-- Every terminated poll made strictly more queries than it started at. -/
lemma pollLoop_queries_lt {st : Nat → Except String (Option String)}
    {interval timeout : Int} :
    ∀ {fuel i : Nat} {elapsed : Int} {out : PollOutcome} {n : Nat},
      pollLoop st interval timeout fuel i elapsed = some (out, n) → i < n := by
  intro fuel
  induction fuel with
  | zero => intro i elapsed out n h; simp [pollLoop] at h
  | succ fuel ih =>
    intro i elapsed out n h
    rw [pollLoop] at h
    split at h
    · simp only [Option.some.injEq, Prod.mk.injEq] at h
      omega
    · split at h
      · simp only [Option.some.injEq, Prod.mk.injEq] at h
        omega
      · split at h
        · simp only [Option.some.injEq, Prod.mk.injEq] at h
          omega
        · split at h
          · simp only [Option.some.injEq, Prod.mk.injEq] at h
            omega
          · have := ih h
            omega

/-! ## Gate helper lemmas -/

lemma gateRecord_posted {row : Row} (now : Instant)
    (h : parse_bool row.posted = true) : gateRecord row now = .skipPosted := by
  simp [gateRecord, h]

lemma gateRecord_setPosted (r : Row) (now : Instant) :
    gateRecord (setPosted r) now = .skipPosted := by
  apply gateRecord_posted
  show parse_bool "true" = true
  decide

/-! ## Run loop helper lemmas -/

/-- How a completed run's output row relates to the input row at the same
position: updated to posted iff the gate let it through. -/
def RowRel (now : Instant) (r r' : Row) : Prop :=
  ((gateRecord r now).isDue = false ∧ r' = r) ∨
  ((gateRecord r now).isDue = true ∧ r' = setPosted r)

lemma runLoop_ok_rel (api : Nat → RecordApi) (interval timeout : Int)
    (fuel : Nat) (now : Instant) :
    ∀ (rows : List Row) (idx : Nat) (out : RunOutcome),
      runLoop api interval timeout fuel now rows idx = some (.ok out) →
      List.Forall₂ (RowRel now) rows out.rows := by
  intro rows
  induction rows with
  | nil =>
    intro idx out h
    simp only [runLoop, Option.some.injEq, Except.ok.injEq] at h
    rw [← h]
    exact List.Forall₂.nil
  | cons row rest ih =>
    intro idx out h
    rw [runLoop] at h
    by_cases hg : (gateRecord row now).isDue = true
    · rw [if_pos hg] at h
      cases hp : processDue (api idx) interval timeout fuel with
      | none => rw [hp] at h; simp at h
      | some res =>
        rw [hp] at h
        obtain ⟨res1, cc⟩ := res
        cases res1 with
        | error e => simp at h
        | ok mid =>
          cases hr : runLoop api interval timeout fuel now rest (idx + 1) with
          | none => rw [hr] at h; simp at h
          | some res2 =>
            rw [hr] at h
            cases res2 with
            | error e2 => simp at h
            | ok out2 =>
              simp only [Option.some.injEq, Except.ok.injEq] at h
              rw [← h]
              exact List.Forall₂.cons (Or.inr ⟨hg, rfl⟩) (ih _ _ hr)
    · rw [if_neg hg] at h
      cases hr : runLoop api interval timeout fuel now rest (idx + 1) with
      | none => rw [hr] at h; simp at h
      | some res2 =>
        rw [hr] at h
        cases res2 with
        | error e2 => simp at h
        | ok out2 =>
          simp only [Option.some.injEq, Except.ok.injEq] at h
          rw [← h]
          exact List.Forall₂.cons
            (Or.inl ⟨Bool.not_eq_true _ ▸ eq_false_of_ne_true hg, rfl⟩) (ih _ _ hr)

lemma runLoop_ok_calls (api : Nat → RecordApi) (interval timeout : Int)
    (fuel : Nat) (now : Instant) :
    ∀ (rows : List Row) (idx : Nat) (out : RunOutcome),
      runLoop api interval timeout fuel now rows idx = some (.ok out) →
      ∀ p ∈ out.calls, idx ≤ p.1 ∧
        ∃ r, rows[p.1 - idx]? = some r ∧ (gateRecord r now).isDue = true := by
  intro rows
  induction rows with
  | nil =>
    intro idx out h p hp
    simp only [runLoop, Option.some.injEq, Except.ok.injEq] at h
    rw [← h] at hp
    simp at hp
  | cons row rest ih =>
    intro idx out h p hp
    rw [runLoop] at h
    by_cases hg : (gateRecord row now).isDue = true
    · rw [if_pos hg] at h
      cases hproc : processDue (api idx) interval timeout fuel with
      | none => rw [hproc] at h; simp at h
      | some res =>
        rw [hproc] at h
        obtain ⟨res1, cc⟩ := res
        cases res1 with
        | error e => simp at h
        | ok mid =>
          cases hr : runLoop api interval timeout fuel now rest (idx + 1) with
          | none => rw [hr] at h; simp at h
          | some res2 =>
            rw [hr] at h
            cases res2 with
            | error e2 => simp at h
            | ok out2 =>
              simp only [Option.some.injEq, Except.ok.injEq] at h
              rw [← h] at hp
              simp only [List.mem_cons] at hp
              rcases hp with rfl | hp
              · refine ⟨Nat.le_refl idx, row, ?_, hg⟩
                simp
              · obtain ⟨hle, r, hrr, hdue⟩ := ih _ _ hr p hp
                refine ⟨Nat.le_trans (Nat.le_succ idx) hle, r, ?_, hdue⟩
                have hsub : p.1 - idx = (p.1 - (idx + 1)) + 1 := by omega
                rw [hsub]
                simpa using hrr
    · rw [if_neg hg] at h
      cases hr : runLoop api interval timeout fuel now rest (idx + 1) with
      | none => rw [hr] at h; simp at h
      | some res2 =>
        rw [hr] at h
        cases res2 with
        | error e2 => simp at h
        | ok out2 =>
          simp only [Option.some.injEq, Except.ok.injEq] at h
          rw [← h] at hp
          obtain ⟨hle, r, hrr, hdue⟩ := ih _ _ hr p hp
          refine ⟨Nat.le_trans (Nat.le_succ idx) hle, r, ?_, hdue⟩
          have hsub : p.1 - idx = (p.1 - (idx + 1)) + 1 := by omega
          rw [hsub]
          simpa using hrr

/-- If no row passes the gate, the run completes normally, touches nothing,
makes no remote call, and leaves `changed` false. -/
lemma runLoop_no_due (api : Nat → RecordApi) (interval timeout : Int)
    (fuel : Nat) (now : Instant) :
    ∀ (rows : List Row) (idx : Nat),
      (∀ r ∈ rows, (gateRecord r now).isDue = false) →
      runLoop api interval timeout fuel now rows idx = some (.ok ⟨rows, false, []⟩) := by
  intro rows
  induction rows with
  | nil => intro idx _; rfl
  | cons row rest ih =>
    intro idx hnone
    rw [runLoop]
    have hg : (gateRecord row now).isDue = false := hnone row (by simp)
    rw [if_neg (by simp [hg])]
    rw [ih (idx + 1) (fun r hr => hnone r (by simp [hr]))]

/-- If every row before position `pre.length` is gated out and the record
there is due with a failing lifecycle, the exception escapes the loop: the
result is that error, the rows after it are never examined, and no write
happens. -/
lemma runLoop_abort (api : Nat → RecordApi) (interval timeout : Int)
    (fuel : Nat) (now : Instant) :
    ∀ (pre : List Row) (row : Row) (rest : List Row) (idx : Nat)
      (e : StepError) (cc : CallCounts),
      (∀ r ∈ pre, (gateRecord r now).isDue = false) →
      (gateRecord row now).isDue = true →
      processDue (api (idx + pre.length)) interval timeout fuel =
        some (.error e, cc) →
      runLoop api interval timeout fuel now (pre ++ row :: rest) idx =
        some (.error (.step (idx + pre.length) e)) := by
  intro pre
  induction pre with
  | nil =>
    intro row rest idx e cc _ hdue hfail
    rw [List.nil_append, runLoop, if_pos (by simp [hdue])]
    simp only [List.length_nil, Nat.add_zero] at hfail ⊢
    rw [hfail]
  | cons q pre ih =>
    intro row rest idx e cc hpre hdue hfail
    rw [List.cons_append, runLoop,
      if_neg (by simp [hpre q (by simp)])]
    have : idx + (q :: pre).length = (idx + 1) + pre.length := by
      simp [List.length_cons]; omega
    rw [this] at hfail ⊢
    rw [ih row rest (idx + 1) e cc (fun r hr => hpre r (by simp [hr])) hdue hfail]

/-! ## strptime structural lemmas (for the legacy-suffix claim) -/

lemma matchY_suffix {cs rest : List Char} {v : Nat}
    (h : matchY cs = some (v, rest)) : rest <:+ cs := by
  match cs with
  | [] => simp [matchY] at h
  | [c1] => simp [matchY] at h
  | [c1, c2] => simp [matchY] at h
  | [c1, c2, c3] => simp [matchY] at h
  | c1 :: c2 :: c3 :: c4 :: rest' =>
    simp only [matchY] at h
    split at h
    · simp only [Option.some.injEq, Prod.mk.injEq] at h
      obtain ⟨-, rfl⟩ := h
      exact ⟨[c1, c2, c3, c4], rfl⟩
    · simp at h

lemma matchMonth_suffix {cs rest : List Char} {v : Nat}
    (h : matchMonth cs = some (v, rest)) : rest <:+ cs := by
  match cs with
  | [] => simp [matchMonth] at h
  | [c1] =>
    simp only [matchMonth] at h
    split at h
    · simp only [Option.some.injEq, Prod.mk.injEq] at h
      obtain ⟨-, rfl⟩ := h
      exact ⟨[c1], rfl⟩
    · simp at h
  | c1 :: c2 :: rest' =>
    simp only [matchMonth] at h
    split at h
    · simp only [Option.some.injEq, Prod.mk.injEq] at h
      obtain ⟨-, rfl⟩ := h
      exact ⟨[c1, c2], rfl⟩
    · split at h
      · simp only [Option.some.injEq, Prod.mk.injEq] at h
        obtain ⟨-, rfl⟩ := h
        exact ⟨[c1, c2], rfl⟩
      · split at h
        · simp only [Option.some.injEq, Prod.mk.injEq] at h
          obtain ⟨-, rfl⟩ := h
          exact ⟨[c1], rfl⟩
        · simp at h

lemma matchDay_suffix {cs rest : List Char} {v : Nat}
    (h : matchDay cs = some (v, rest)) : rest <:+ cs := by
  match cs with
  | [] => simp [matchDay] at h
  | [c1] =>
    simp only [matchDay] at h
    split at h
    · simp only [Option.some.injEq, Prod.mk.injEq] at h
      obtain ⟨-, rfl⟩ := h
      exact ⟨[c1], rfl⟩
    · simp at h
  | c1 :: c2 :: rest' =>
    simp only [matchDay] at h
    split at h
    · simp only [Option.some.injEq, Prod.mk.injEq] at h
      obtain ⟨-, rfl⟩ := h
      exact ⟨[c1, c2], rfl⟩
    · split at h
      · simp only [Option.some.injEq, Prod.mk.injEq] at h
        obtain ⟨-, rfl⟩ := h
        exact ⟨[c1, c2], rfl⟩
      · split at h
        · simp only [Option.some.injEq, Prod.mk.injEq] at h
          obtain ⟨-, rfl⟩ := h
          exact ⟨[c1, c2], rfl⟩
        · split at h
          · simp only [Option.some.injEq, Prod.mk.injEq] at h
            obtain ⟨-, rfl⟩ := h
            exact ⟨[c1], rfl⟩
          · simp at h

lemma matchHour_suffix {cs rest : List Char} {v : Nat}
    (h : matchHour cs = some (v, rest)) : rest <:+ cs := by
  match cs with
  | [] => simp [matchHour] at h
  | [c1] =>
    simp only [matchHour] at h
    split at h
    · simp only [Option.some.injEq, Prod.mk.injEq] at h
      obtain ⟨-, rfl⟩ := h
      exact ⟨[c1], rfl⟩
    · simp at h
  | c1 :: c2 :: rest' =>
    simp only [matchHour] at h
    split at h
    · simp only [Option.some.injEq, Prod.mk.injEq] at h
      obtain ⟨-, rfl⟩ := h
      exact ⟨[c1, c2], rfl⟩
    · split at h
      · simp only [Option.some.injEq, Prod.mk.injEq] at h
        obtain ⟨-, rfl⟩ := h
        exact ⟨[c1, c2], rfl⟩
      · split at h
        · simp only [Option.some.injEq, Prod.mk.injEq] at h
          obtain ⟨-, rfl⟩ := h
          exact ⟨[c1], rfl⟩
        · simp at h

lemma matchLit_suffix {c : Char} {cs rest : List Char}
    (h : matchLit c cs = some rest) : rest <:+ cs := by
  match cs with
  | [] => simp [matchLit] at h
  | c1 :: rest' =>
    simp only [matchLit] at h
    split at h
    · simp only [Option.some.injEq] at h
      subst h
      exact ⟨[c1], rfl⟩
    · simp at h

lemma matchWs_suffix {cs rest : List Char}
    (h : matchWs cs = some rest) : rest <:+ cs := by
  match cs with
  | [] => simp [matchWs] at h
  | c1 :: rest' =>
    simp only [matchWs] at h
    split at h
    · simp only [Option.some.injEq] at h
      subst h
      exact (List.dropWhile_suffix _).trans (List.suffix_cons c1 rest')
    · simp at h

/-- A minute directive that consumed everything up to the end of the input
read a digit as the last character. -/
lemma matchMinute_last {cs : List Char} {v : Nat}
    (h : matchMinute cs = some (v, [])) :
    ∃ c, cs.getLast? = some c ∧ c.isDigit = true := by
  match cs with
  | [] => simp [matchMinute] at h
  | [c1] =>
    simp only [matchMinute] at h
    split at h
    · rename_i hd
      exact ⟨c1, rfl, hd⟩
    · simp at h
  | c1 :: c2 :: rest' =>
    simp only [matchMinute] at h
    split at h
    · rename_i hcond
      simp only [Option.some.injEq, Prod.mk.injEq] at h
      obtain ⟨-, hrest⟩ := h
      subst hrest
      exact ⟨c2, rfl, hcond.2.2⟩
    · split at h
      · simp only [Option.some.injEq, Prod.mk.injEq] at h
        exact absurd h.2 (by simp)
      · simp at h

/-- If `strptime` accepts a string, its last character is a digit: the
format ends in `%M`, whose pattern matches only digits, and the whole input
must be consumed. -/
lemma strptime_last_digit {s : String} {dt : DateTime}
    (h : strptime_YmdHM s = some dt) :
    ∃ c, s.data.getLast? = some c ∧ c.isDigit = true := by
  unfold strptime_YmdHM at h
  cases hY : matchY s.data with
  | none => rw [hY] at h; simp at h
  | some py =>
  rw [hY] at h
  obtain ⟨y, cs1⟩ := py
  dsimp only at h
  cases hL1 : matchLit '-' cs1 with
  | none => rw [hL1] at h; simp at h
  | some cs2 =>
  rw [hL1] at h
  dsimp only at h
  cases hM : matchMonth cs2 with
  | none => rw [hM] at h; simp at h
  | some pm =>
  rw [hM] at h
  obtain ⟨mo, cs3⟩ := pm
  dsimp only at h
  cases hL2 : matchLit '-' cs3 with
  | none => rw [hL2] at h; simp at h
  | some cs4 =>
  rw [hL2] at h
  dsimp only at h
  cases hD : matchDay cs4 with
  | none => rw [hD] at h; simp at h
  | some pd =>
  rw [hD] at h
  obtain ⟨d, cs5⟩ := pd
  dsimp only at h
  cases hW : matchWs cs5 with
  | none => rw [hW] at h; simp at h
  | some cs6 =>
  rw [hW] at h
  dsimp only at h
  cases hH : matchHour cs6 with
  | none => rw [hH] at h; simp at h
  | some ph =>
  rw [hH] at h
  obtain ⟨hh, cs7⟩ := ph
  dsimp only at h
  cases hL3 : matchLit ':' cs7 with
  | none => rw [hL3] at h; simp at h
  | some cs8 =>
  rw [hL3] at h
  dsimp only at h
  cases hMin : matchMinute cs8 with
  | none => rw [hMin] at h; simp at h
  | some pmin =>
  rw [hMin] at h
  obtain ⟨mi, cs9⟩ := pmin
  dsimp only at h
  split at h
  · rename_i hcond
    rw [hcond.1] at hMin
    obtain ⟨c, hlast, hdig⟩ := matchMinute_last hMin
    have hsuf : cs8 <:+ s.data :=
      ((((((((matchLit_suffix hL3).trans (matchHour_suffix hH)).trans
        (matchWs_suffix hW)).trans (matchDay_suffix hD)).trans
        (matchLit_suffix hL2)).trans (matchMonth_suffix hM)).trans
        (matchLit_suffix hL1)).trans (matchY_suffix hY))
    obtain ⟨t, ht⟩ := hsuf
    have hne : cs8 ≠ [] := by
      intro he
      rw [he] at hlast
      simp at hlast
    rw [← ht, List.getLast?_append_of_ne_nil t hne]
    exact ⟨c, hlast, hdig⟩
  · simp at h

lemma endsWithLegacy_last {s : String} (h : endsWithLegacy s = true) :
    s.data.getLast? = some 'y' := by
  have hsuf : ":00Z-legacy".data <:+ s.data := List.isSuffixOf_iff_suffix.mp h
  obtain ⟨t, ht⟩ := hsuf
  rw [← ht, List.getLast?_append_of_ne_nil t (by decide)]
  decide

lemma endsWithLegacy_ne_empty {s : String} (h : endsWithLegacy s = true) :
    s ≠ "" := by
  intro he
  subst he
  exact absurd h (by decide)

lemma strptime_legacy_none {s : String} (h : endsWithLegacy s = true) :
    strptime_YmdHM s = none := by
  cases hp : strptime_YmdHM s with
  | none => rfl
  | some dt =>
    obtain ⟨c, hc, hdig⟩ := strptime_last_digit hp
    rw [endsWithLegacy_last h] at hc
    injection hc with hc
    subst hc
    exact absurd hdig (by decide)

/-! ## Claim C1 (corrected) -/

/-- C1, counterexample: a manifest with two due records where the first
record's create call raises. The run does NOT continue with the second due
record and does NOT complete normally: the uncaught exception is the
result. This falsifies the claim that a remote-step failure is scoped to
its record. -/
theorem createFailure_aborts_run_concrete :
    mainRun (fun i => if i = 0 then failCreateApi else okApi) 8 180 100 now0
      [dueRow, dueRow] = some (.error (.step 0 (.createError "boom"))) := by
  rfl

/-- C1 as amended: a failure of any remote step (create, status poll,
publish) on a due record is NOT scoped to that record — `main` has no
try/except around the lifecycle, so the exception propagates, the run
aborts at that record, every subsequent record (due or not) goes
unprocessed, and no manifest write happens; only records gated out before
the failing one are reached. (A failure to read the manifest is likewise
fatal, as the claim said.) -/
theorem remote_failure_aborts_subsequent_records
    (api : Nat → RecordApi) (interval timeout : Int) (fuel : Nat) (now : Instant)
    (pre : List Row) (row : Row) (rest : List Row) (e : StepError) (cc : CallCounts)
    (hpre : ∀ r ∈ pre, (gateRecord r (truncToMinute now)).isDue = false)
    (hdue : (gateRecord row (truncToMinute now)).isDue = true)
    (hfail : processDue (api pre.length) interval timeout fuel =
      some (.error e, cc)) :
    mainRun api interval timeout fuel now (pre ++ row :: rest) =
      some (.error (.step pre.length e)) := by
  unfold mainRun
  have h0 := runLoop_abort api interval timeout fuel (truncToMinute now)
    pre row rest 0 e cc hpre hdue (by rwa [Nat.zero_add])
  rwa [Nat.zero_add] at h0

/-- C1 amended, witness at a concrete input. -/
theorem remote_failure_aborts_subsequent_records_witness :
    mainRun (fun _ => failCreateApi) 8 180 5 now0 [dueRow, dueRow] =
      some (.error (.step 0 (.createError "boom"))) :=
  remote_failure_aborts_subsequent_records (fun _ => failCreateApi) 8 180 5 now0
    [] dueRow [dueRow] (.createError "boom") ⟨1, 0, 0⟩
    (by simp) (by decide) rfl

/-! ## Claim C2 (corrected) -/

/-- C2, counterexample: with timeout 20s, interval 8s and a status of
`IN_PROGRESS` on every query, the loop makes status queries at elapsed
0, 8, 16 and 24 seconds and raises the timeout only after the FOURTH
query — not after "at most 3 status queries" as claimed. -/
theorem timeout_query_count_counterexample :
    processDue ipApi 8 20 100 =
      some (.error (.timeoutError "c1"), ⟨1, 4, 0⟩) ∧ ¬ (4 : Nat) ≤ 3 :=
  ⟨by rfl, by decide⟩

/-- C2 as amended: for poll timeout 20s, interval 8s and a container that is
`IN_PROGRESS` on every query, `poll_container_ready` raises a timeout
failure after exactly 4 status queries (24s elapsed: the check
`time.time() - start > POLL_TIMEOUT` first succeeds after the third sleep),
and `publish_container` is never called for that container. -/
theorem timeout_after_four_queries (api : RecordApi) (cid : String) (fuel : Nat)
    (hc : api.createResult = .ok cid)
    (hs : ∀ i, api.status i = .ok (some "IN_PROGRESS")) :
    processDue api 8 20 (fuel + 4) =
      some (.error (.timeoutError cid), ⟨1, 4, 0⟩) := by
  unfold processDue
  rw [hc]
  dsimp only
  unfold poll_container_ready
  have e1 : pollLoop api.status 8 20 (fuel + 4) 0 0 =
      pollLoop api.status 8 20 (fuel + 3) 1 8 :=
    pollLoop_cont (hs 0) (by decide) (by decide) (by decide) (by decide)
  have e2 : pollLoop api.status 8 20 (fuel + 3) 1 8 =
      pollLoop api.status 8 20 (fuel + 2) 2 16 :=
    pollLoop_cont (hs 1) (by decide) (by decide) (by decide) (by decide)
  have e3 : pollLoop api.status 8 20 (fuel + 2) 2 16 =
      pollLoop api.status 8 20 (fuel + 1) 3 24 :=
    pollLoop_cont (hs 2) (by decide) (by decide) (by decide) (by decide)
  have e4 : pollLoop api.status 8 20 (fuel + 1) 3 24 = some (.timedOut, 4) :=
    pollLoop_timeout (hs 3) (by decide) (by decide) (by decide) (by decide)
  rw [e1, e2, e3, e4]

/-- C2 amended, witness at a concrete input. -/
theorem timeout_after_four_queries_witness :
    processDue ipApi 8 20 6 = some (.error (.timeoutError "c1"), ⟨1, 4, 0⟩) :=
  timeout_after_four_queries ipApi "c1" 2 rfl (fun _ => rfl)

/-! ## Claim C3 (corrected) -/

/-- C3, counterexample: for a row whose schedule string is whitespace only,
the due decision agrees with the reference, but the reference says the skip
logs a warning while the code's empty-string arm skips silently (only the
parse-failure arm prints `[WARN]`). -/
theorem empty_schedule_warning_counterexample :
    (gateRecord emptyRow (truncToMinute now0)).isDue = isDue_spec emptyRow now0 ∧
    (gateRecord emptyRow (truncToMinute now0)).warned = false ∧
    warns_spec emptyRow = true := by
  decide

/-- C3 as amended: for every record and current time the due-gating decision
equals the reference definition (not due if `posted`; not due if the
schedule string is empty or fails to parse; not due if now is before the
scheduled time; due otherwise with no upper bound on lateness; `now`
truncated to minute granularity before the comparison) — but a warning is
logged only when a NONempty schedule string fails to parse; an empty one is
skipped silently. -/
theorem gate_matches_spec_amended (row : Row) (now : Instant) :
    (gateRecord row (truncToMinute now)).isDue = isDue_spec row now ∧
    (gateRecord row (truncToMinute now)).warned = warnsAmended row := by
  unfold gateRecord isDue_spec warnsAmended
  by_cases hp : parse_bool row.posted = true
  · simp [hp, Gate.isDue, Gate.warned]
  · replace hp : parse_bool row.posted = false := by
      cases hb : parse_bool row.posted
      · rfl
      · exact absurd hb hp
    by_cases he : pyStrip row.scheduled_time_ist = ""
    · have hps : parseSched "" = none := by decide
      simp [hp, he, hps, Gate.isDue, Gate.warned]
    · cases hps : parseSched (pyStrip row.scheduled_time_ist) with
      | none => simp [hp, he, hps, Gate.isDue, Gate.warned]
      | some dt =>
        by_cases hlt : instantLt (truncToMinute now) (dtToInstant dt) = true
        · simp [hp, he, hps, hlt, Gate.isDue, Gate.warned]
        · replace hlt : instantLt (truncToMinute now) (dtToInstant dt) = false := by
            cases hb : instantLt (truncToMinute now) (dtToInstant dt)
            · rfl
            · exact absurd hb hlt
          simp [hp, he, hps, hlt, Gate.isDue, Gate.warned]

/-! ## Claim C4 (confirmed) -/

/-- C4: for every record whose `posted` field parses as true, a completed
run leaves that record unchanged at its position, and no remote call of any
kind (create, status query or publish) is attributed to its index. -/
theorem posted_rows_untouched
    (api : Nat → RecordApi) (interval timeout : Int) (fuel : Nat) (now : Instant)
    (rows : List Row) (out : RunOutcome) (i : Nat) (r : Row)
    (hrun : mainRun api interval timeout fuel now rows = some (.ok out))
    (hi : rows[i]? = some r)
    (hposted : parse_bool r.posted = true) :
    out.rows[i]? = some r ∧ ∀ p ∈ out.calls, p.1 ≠ i := by
  unfold mainRun at hrun
  have hrel := runLoop_ok_rel api interval timeout fuel (truncToMinute now)
    rows 0 out hrun
  have hcalls := runLoop_ok_calls api interval timeout fuel (truncToMinute now)
    rows 0 out hrun
  rw [List.getElem?_eq_some] at hi
  obtain ⟨hilen, hig⟩ := hi
  have hget := List.forall₂_iff_get.mp hrel
  have hilen2 : i < out.rows.length := by omega
  have hR := hget.2 i hilen hilen2
  have hgr : rows.get ⟨i, hilen⟩ = r := by
    simpa [List.get_eq_getElem] using hig
  rw [hgr] at hR
  have hgate : gateRecord r (truncToMinute now) = .skipPosted :=
    gateRecord_posted _ hposted
  constructor
  · rcases hR with ⟨-, hEq⟩ | ⟨hdue, -⟩
    · rw [List.getElem?_eq_some]
      refine ⟨hilen2, ?_⟩
      simpa [List.get_eq_getElem] using hEq
    · rw [hgate] at hdue
      exact absurd hdue (by decide)
  · intro p hp hpe
    obtain ⟨-, r0, hr0, hdue0⟩ := hcalls p hp
    rw [Nat.sub_zero, hpe] at hr0
    have hr0r : r0 = r := by
      rw [List.getElem?_eq_some] at hr0
      obtain ⟨h1, h2⟩ := hr0
      rw [← h2]
      simpa [List.get_eq_getElem] using hgr
    rw [hr0r, hgate] at hdue0
    exact absurd hdue0 (by decide)

/-- C4, witness at a concrete input. -/
theorem posted_rows_untouched_witness :
    ([postedRow] : List Row)[0]? = some postedRow ∧
    ∀ p ∈ ([] : List (Nat × CallCounts)), p.1 ≠ 0 :=
  posted_rows_untouched (fun _ => okApi) 8 180 3 now0 [postedRow]
    ⟨[postedRow], false, []⟩ 0 postedRow rfl rfl (by decide)

/-! ## Claim C5 (confirmed) -/

/-- C5: after a run completes, a second run at the same or a later time with
no newly due records (every record was either already due at the first
run's time, hence got posted, or is still not due at the second run's time)
completes with the dirty flag false, performs no manifest write, leaves
every row unchanged and makes no remote call. -/
theorem second_run_makes_no_write
    (api1 api2 : Nat → RecordApi) (it1 to1 it2 to2 : Int) (fuel1 fuel2 : Nat)
    (t1 t2 : Instant) (rows : List Row) (out1 : RunOutcome)
    (h1 : mainRun api1 it1 to1 fuel1 t1 rows = some (.ok out1))
    (h2 : ∀ r ∈ rows, (gateRecord r (truncToMinute t1)).isDue = true ∨
          (gateRecord r (truncToMinute t2)).isDue = false) :
    mainRun api2 it2 to2 fuel2 t2 out1.rows = some (.ok ⟨out1.rows, false, []⟩) := by
  unfold mainRun at h1 ⊢
  apply runLoop_no_due
  intro r' hr'
  have hrel := runLoop_ok_rel api1 it1 to1 fuel1 (truncToMinute t1) rows 0 out1 h1
  have hget := List.forall₂_iff_get.mp hrel
  obtain ⟨⟨i, hi⟩, hgeq⟩ := List.mem_iff_get.mp hr'
  have hilen : i < rows.length := by omega
  have hR := hget.2 i hilen hi
  rw [hgeq] at hR
  rcases hR with ⟨hnd, hEq⟩ | ⟨hd, hEq⟩
  · rw [hEq]
    rcases h2 (rows.get ⟨i, hilen⟩) (rows.get_mem _ _) with hdue1 | hnd2
    · rw [hdue1] at hnd
      exact absurd hnd (by decide)
    · exact hnd2
  · rw [hEq, gateRecord_setPosted]
    rfl

/-- C5, witness at a concrete input: one due record, first run publishes it,
second run at the same time changes nothing and leaves `changed` false. -/
theorem second_run_makes_no_write_witness :
    mainRun (fun _ => okApi) 8 180 3 now0 [setPosted dueRow] =
      some (.ok ⟨[setPosted dueRow], false, []⟩) :=
  second_run_makes_no_write (fun _ => okApi) (fun _ => okApi) 8 180 8 180 3 3
    now0 now0 [dueRow] ⟨[setPosted dueRow], true, [(0, ⟨1, 1, 1⟩)]⟩
    rfl (by intro r hr; simp at hr; subst hr; left; decide)

/-! ## Claim C6 (confirmed) -/

/-- C6: for a due record and a container whose status sequence is
`IN_PROGRESS, IN_PROGRESS, FINISHED` with poll interval 8s and any timeout
of at least the default 180s, the lifecycle issues exactly 3 status queries
and then calls `publish_container` exactly once. -/
theorem three_queries_then_publish (api : RecordApi) (cid mid : String)
    (timeout : Int) (fuel : Nat)
    (hc : api.createResult = .ok cid)
    (h0 : api.status 0 = .ok (some "IN_PROGRESS"))
    (h1 : api.status 1 = .ok (some "IN_PROGRESS"))
    (h2 : api.status 2 = .ok (some "FINISHED"))
    (hpub : api.publishResult = .ok mid)
    (hto : (180 : Int) ≤ timeout) :
    processDue api 8 timeout (fuel + 3) = some (.ok mid, ⟨1, 3, 1⟩) := by
  unfold processDue
  rw [hc]
  dsimp only
  unfold poll_container_ready
  have e1 : pollLoop api.status 8 timeout (fuel + 3) 0 0 =
      pollLoop api.status 8 timeout (fuel + 2) 1 8 :=
    pollLoop_cont h0 (by decide) (by decide) (by decide) (by omega)
  have e2 : pollLoop api.status 8 timeout (fuel + 2) 1 8 =
      pollLoop api.status 8 timeout (fuel + 1) 2 16 :=
    pollLoop_cont h1 (by decide) (by decide) (by decide) (by omega)
  have e3 : pollLoop api.status 8 timeout (fuel + 1) 2 16 =
      some (.finished, 3) :=
    pollLoop_finished h2
  rw [e1, e2, e3]
  dsimp only
  rw [hpub]

/-- C6, witness at a concrete input. -/
theorem three_queries_then_publish_witness :
    processDue ⟨.ok "c1",
        fun i => .ok (some (if i < 2 then "IN_PROGRESS" else "FINISHED")),
        .ok "m1"⟩ 8 180 7 =
      some (.ok "m1", ⟨1, 3, 1⟩) :=
  three_queries_then_publish _ "c1" "m1" 180 4 rfl rfl rfl rfl rfl (by decide)

/-! ## Claim C7 (confirmed) -/

/-- C7: for every container whose first polled status is `ERROR` or
`EXPIRED`, the lifecycle fails immediately with that status embedded in the
error, after exactly one status query, and `publish_container` is never
called for that container. -/
theorem failed_status_fails_immediately (api : RecordApi) (cid s : String)
    (interval timeout : Int) (fuel : Nat)
    (hc : api.createResult = .ok cid)
    (hs : api.status 0 = .ok (some s))
    (hfail : s = "ERROR" ∨ s = "EXPIRED") :
    processDue api interval timeout (fuel + 1) =
      some (.error (.containerFailed cid s), ⟨1, 1, 0⟩) := by
  unfold processDue
  rw [hc]
  dsimp only
  unfold poll_container_ready
  rw [pollLoop_failstat hs hfail]

/-- C7, witness at a concrete input. -/
theorem failed_status_fails_immediately_witness :
    processDue ⟨.ok "c1", fun _ => .ok (some "EXPIRED"), .ok "m1"⟩ 8 180 9 =
      some (.error (.containerFailed "c1" "EXPIRED"), ⟨1, 1, 0⟩) :=
  failed_status_fails_immediately _ "c1" "EXPIRED" 8 180 8 rfl rfl (Or.inr rfl)

/-! ## Claim C8 (confirmed) -/

/-- C8: any polled status other than `FINISHED`, `ERROR` or `EXPIRED` —
including an absent `status_code` field (`v = none`) — is treated as "not
yet finished": within the timeout budget the loop does not fail on it, and
after the fixed sleep the next iteration queries again. -/
theorem unrecognized_status_continues_polling
    (st : Nat → Except String (Option String)) (interval timeout : Int)
    (fuel i : Nat) (elapsed : Int) (v : Option String)
    (hs : st i = .ok v)
    (h1 : v ≠ some "FINISHED") (h2 : v ≠ some "ERROR") (h3 : v ≠ some "EXPIRED")
    (hto : ¬ elapsed > timeout) :
    pollLoop st interval timeout (fuel + 1) i elapsed =
      pollLoop st interval timeout fuel (i + 1) (elapsed + interval) :=
  pollLoop_cont hs h1 h2 h3 hto

/-- C8, witness at a concrete input: a response without a `status_code`
field. -/
theorem unrecognized_status_continues_polling_witness :
    pollLoop (fun _ => .ok none) 8 10 3 0 0 =
      pollLoop (fun _ => .ok none) 8 10 2 1 8 :=
  unrecognized_status_continues_polling (fun _ => .ok none) 8 10 2 0 0 none
    rfl (by decide) (by decide) (by decide) (by decide)

/-! ## Claim C9 (confirmed) -/

/-- C9: for every schedule string ending in `":00Z-legacy"`, `strptime` with
format `"%Y-%m-%d %H:%M"` always fails (the format ends in `%M`, so an
accepted string ends in a digit, but these strings end in the letter `y`),
hence the legacy `IST.localize` branch never completes and can never yield
a parsed scheduled time; an unposted record with such a schedule string is
skipped through the warning arm. -/
theorem legacy_suffix_never_parses (s : String) (h : endsWithLegacy s = true) :
    strptime_YmdHM s = none ∧ parseSched s = none ∧
    ∀ (row : Row) (now : Instant), parse_bool row.posted = false →
      pyStrip row.scheduled_time_ist = s →
      gateRecord row now = .skipBadFormat s := by
  have hnone : strptime_YmdHM s = none := strptime_legacy_none h
  have hps : parseSched s = none := by
    unfold parseSched
    rw [if_pos ⟨endsWithLegacy_ne_empty h, h⟩, hnone]
    rfl
  refine ⟨hnone, hps, ?_⟩
  intro row now hp hss
  unfold gateRecord
  rw [hp]
  dsimp only
  rw [hss, if_neg (endsWithLegacy_ne_empty h), hps]
  rfl

/-- C9, witness at a concrete input. -/
theorem legacy_suffix_never_parses_witness :
    strptime_YmdHM "2024-01-02 03:00Z-legacy" = none ∧
    parseSched "2024-01-02 03:00Z-legacy" = none :=
  ⟨(legacy_suffix_never_parses "2024-01-02 03:00Z-legacy" (by decide)).1,
   (legacy_suffix_never_parses "2024-01-02 03:00Z-legacy" (by decide)).2.1⟩

/-! ## Claim C10 (confirmed) -/

/-- C10: for every poll timeout value, including zero or negative, the loop
issues at least one status query before any timeout check (the query count
of any terminating poll is at least 1), and if the first polled status is
`FINISHED` the poll returns success after that single query even when the
timeout budget is already exhausted. -/
theorem first_query_precedes_timeout_check
    (st : Nat → Except String (Option String)) (interval timeout : Int)
    (fuel : Nat) :
    (st 0 = .ok (some "FINISHED") →
      poll_container_ready st interval timeout (fuel + 1) = some (.finished, 1)) ∧
    ∀ out n, poll_container_ready st interval timeout (fuel + 1) = some (out, n) →
      1 ≤ n := by
  constructor
  · intro h
    unfold poll_container_ready
    exact pollLoop_finished h
  · intro out n h
    unfold poll_container_ready at h
    have := pollLoop_queries_lt h
    omega

/-- C10, witness at a concrete input with a negative timeout. -/
theorem first_query_precedes_timeout_check_witness :
    poll_container_ready (fun _ => .ok (some "FINISHED")) 8 (-5) 1 =
      some (.finished, 1) :=
  (first_query_precedes_timeout_check (fun _ => .ok (some "FINISHED")) 8 (-5) 0).1
    rfl
